import Mathlib

/-!
Verification of the keyword-notifier source-aggregation and deduplication
pipeline (DanielMSchmidt/keyword-notifier, Rust).

Shallow embedding of the pipeline's pure data flow:

* `Shareable` mirrors the `Shareable` struct shared by
  `src/fetcher/base.rs`, `src/fetcher/twitter.rs`,
  `src/fetcher/stackoverflow.rs` and `fetcher-twitter/src/main.rs`.
* The durable store is a `List Shareable` (the `shareables` MySQL table in
  row-insertion order).  The table keys rows on `id` — the comment in
  `base.rs` ("MYSQL will find the duplicates and ignore them") documents
  the unique key that makes `INSERT IGNORE` skip duplicates — so the model
  of a plain `INSERT` of a row whose `id` is already present is a
  duplicate-key error, and the model of `INSERT IGNORE` silently skips it.
* `mysql`'s `exec_batch` prepares one statement and executes it once per
  parameter row, sequentially on an autocommit connection; rows executed
  before a failing row stay committed, rows after it are never attempted.
  `plainInsertBatch` models this.
* Fallible upstream calls (`fetch_twitter_api`, `fetch_stackoverflow_api`,
  the trait method `Fetcher::fetch`) are passed in as `Except String _`
  values: the cycle functions are parameterized by the upstream outcome.
* `chrono`'s `Utc.timestamp(secs, 0)` panics when `secs` is outside the
  representable `NaiveDateTime` range; the StackOverflow normalization is
  therefore modeled as an `Option`, `none` standing for the panic.
-/

deriving instance DecidableEq for Except

namespace KeywordNotifier

/-- Boolean test that `pat` is a leading segment of `cs`; helper for the
substring test below (Rust `str::contains` / `str::starts_with`). -/
def listStartsWith : List Char → List Char → Bool
  | [], _ => true
  | _ :: _, [] => false
  | p :: ps, c :: cs => p == c && listStartsWith ps cs

/-- Boolean substring occurrence test on character lists. -/
def listHasSub (pat : List Char) : List Char → Bool
  | [] => listStartsWith pat []
  | c :: cs => listStartsWith pat (c :: cs) || listHasSub pat cs

/-- Model of Rust `String::contains(pat)` (substring containment). -/
def strContainsSub (s pat : String) : Bool := listHasSub pat.toList s.toList

/-- Model of Rust `String::starts_with(pat)`. -/
def strStarts (s pat : String) : Bool := listStartsWith pat.toList s.toList

/-- The `Shareable` struct (identical in `base.rs`, `twitter.rs`,
`stackoverflow.rs` and `fetcher-twitter/src/main.rs`): one persisted item. -/
structure Shareable where
  id : String
  title : String
  date : String
  url : String
  source : String
  deriving DecidableEq

/-- The durable store: the `shareables` table as its rows in insertion
order. -/
abbrev Store := List Shareable

/-- `SELECT id from shareables`: the known-identifier snapshot
(`known_shareables` in `twitter.rs` / `stackoverflow.rs`, each row wrapped
in `KnownShareable { id }`). -/
def storeIds (s : Store) : List String := s.map (fun p => p.id)

/-- One row of an `INSERT IGNORE` batch against the unique-keyed
`shareables` table: a row whose `id` is already present is silently
skipped, otherwise it is appended.  Models one parameter set of the
`exec_batch` call in `Fetcher::run` (`base.rs` lines 39–52). -/
def insertIgnoreRow (s : Store) (p : Shareable) : Store :=
  if p.id ∈ storeIds s then s else s ++ [p]

/-- The whole `INSERT IGNORE ...` `exec_batch` call of `Fetcher::run`:
rows are executed sequentially; duplicate keys are ignored, never an
error. -/
def insertIgnoreBatch (s : Store) (ps : List Shareable) : Store :=
  ps.foldl insertIgnoreRow s

/-- The plain `INSERT ...` `exec_batch` call of `twitter.rs` /
`stackoverflow.rs` (no `IGNORE`): rows are executed sequentially on an
autocommit connection; the first row whose `id` is already present raises
a duplicate-key error, which aborts the batch — rows inserted before it
stay committed, rows after it are never attempted.  Returns the resulting
table and `some errorMessage` when the batch failed. -/
def plainInsertBatch (s : Store) : List Shareable → Store × Option String
  | [] => (s, none)
  | p :: ps =>
    if p.id ∈ storeIds s then (s, some "Duplicate entry")
    else plainInsertBatch (s ++ [p]) ps

/-- `TwitterResponseItem` (`twitter.rs` lines 32–37): one decoded raw
tweet. -/
structure TwitterResponseItem where
  id : String
  text : String
  created_at : String
  deriving DecidableEq

/-- `TwitterResponse` (`twitter.rs` lines 39–42): the decoded response
body.  Note it has only the `data` field — any pagination token in the
raw JSON is dropped by the decode. -/
structure TwitterResponse where
  data : List TwitterResponseItem
  deriving DecidableEq

/-- The `Shareable` built from one tweet in the `for_each` body of
`twitter.rs` `fetch` (lines 98–104). -/
def twitterNormalize (it : TwitterResponseItem) : Shareable :=
  { id := "twitter-" ++ it.id
    title := it.text
    date := it.created_at
    url := "https://twitter.com/twitter/status/" ++ it.id
    source := "twitter" }

/-- The `shareables` vector built by the `for_each` loop of `twitter.rs`
`fetch` (lines 87–106): for each tweet in response order, a tweet whose
text contains `"RT"` is skipped (the retweet exclusion, checked first),
then a tweet whose prospective id is in the known-identifier snapshot is
skipped, and the rest are normalized and pushed. -/
def twitterBatch (known : List String) : List TwitterResponseItem → List Shareable
  | [] => []
  | it :: its =>
    if strContainsSub it.text "RT" then twitterBatch known its
    else if ("twitter-" ++ it.id) ∈ known then twitterBatch known its
    else twitterNormalize it :: twitterBatch known its

/-- `twitter.rs` `fetch` (lines 71–135), the check-then-write Fetch Cycle
for the tweet source, parameterized by the outcome of
`fetch_twitter_api`: read the known-id snapshot; on a fetch error, log
and `return Ok(())` (line 110) — no write; on success, build the batch
and run the plain `INSERT` `exec_batch`, propagating a store error with
`?`.  (The initial `SELECT` is modeled as always succeeding; its `?`
error path performs no write either.) -/
def twitterFetch (s : Store) (tr : Except String TwitterResponse) :
    Store × Except String Unit :=
  let known := storeIds s
  match tr with
  | .error _ => (s, .ok ())
  | .ok data =>
    let shareables := twitterBatch known data.data
    let res := plainInsertBatch s shareables
    (res.1, match res.2 with | some m => .error m | none => .ok ())

/-- The `shareables` vector built by `fetcher-twitter/src/main.rs` `fetch`
(lines 85–99): the same loop as `twitter.rs` but with NO retweet
exclusion — only the known-identifier check. -/
def ftBatch (known : List String) : List TwitterResponseItem → List Shareable
  | [] => []
  | it :: its =>
    if ("twitter-" ++ it.id) ∈ known then ftBatch known its
    else twitterNormalize it :: ftBatch known its

/-- `fetcher-twitter/src/main.rs` `fetch` (lines 69–128): identical to
`twitter.rs` `fetch` except that its loop applies no exclusion rule. -/
def ftFetch (s : Store) (tr : Except String TwitterResponse) :
    Store × Except String Unit :=
  let known := storeIds s
  match tr with
  | .error _ => (s, .ok ())
  | .ok data =>
    let shareables := ftBatch known data.data
    let res := plainInsertBatch s shareables
    (res.1, match res.2 with | some m => .error m | none => .ok ())

/-- `StackOverflowQuestion` (`stackoverflow.rs` lines 31–38): one decoded
raw question.  `answer_count` is an `i32`, `creation_date` an `i64`; both
are carried as `Int`. -/
structure StackOverflowQuestion where
  is_answered : Bool
  link : String
  title : String
  answer_count : Int
  creation_date : Int
  deriving DecidableEq

/-- `StackOverflowResponse` (`stackoverflow.rs` lines 40–43). -/
structure StackOverflowResponse where
  items : List StackOverflowQuestion
  deriving DecidableEq

/-- Smallest `secs` accepted by chrono 0.4's
`NaiveDateTime::from_timestamp_opt(secs, _)`: the timestamp of
`NaiveDate::MIN` (January 1, -262144) at midnight. -/
def chronoMinSecs : Int := -8334632937600

/-- Largest `secs` accepted by chrono 0.4's
`NaiveDateTime::from_timestamp_opt(secs, _)`: the timestamp of
`NaiveDate::MAX` (December 31, 262143) at 23:59:59. -/
def chronoMaxSecs : Int := 8210298412799

/-- Model of chrono's `Utc.timestamp(secs, 0)` panic condition: the call
delegates to `timestamp_opt(secs, 0).unwrap()` and panics when `secs` is
outside the representable `NaiveDateTime` range. -/
def chronoTimestampOk (secs : Int) : Bool :=
  decide (chronoMinSecs ≤ secs) && decide (secs ≤ chronoMaxSecs)

/-- Civil date (year, month, day) of a day count relative to 1970-01-01,
proleptic Gregorian; models the date that `Utc.timestamp(secs, 0).date()`
carries. -/
def civilFromDays (z : Int) : Int × Int × Int :=
  let z' := z + 719468
  let era := z'.fdiv 146097
  let doe := z' - era * 146097
  let yoe := (doe - doe.fdiv 1460 + doe.fdiv 36524 - doe.fdiv 146096).fdiv 365
  let y := yoe + era * 400
  let doy := doe - (365 * yoe + yoe.fdiv 4 - yoe.fdiv 100)
  let mp := (5 * doy + 2).fdiv 153
  let d := doy - (153 * mp + 2).fdiv 5 + 1
  let m := mp + (if mp < 10 then 3 else -9)
  (y + (if m ≤ 2 then 1 else 0), m, d)

/-- Zero-pad a numeral to two digits (chrono month/day formatting). -/
def pad2 (n : Int) : String :=
  if 0 ≤ n ∧ n < 10 then "0" ++ toString n else toString n

/-- Model of `Utc.timestamp(secs, 0).date().to_string()` (`stackoverflow.rs`
line 101 and 113): `Date<Utc>` displays as `YYYY-MM-DDUTC`. -/
def utcDateString (secs : Int) : String :=
  let c := civilFromDays (secs.fdiv 86400)
  toString c.1 ++ "-" ++ pad2 c.2.1 ++ "-" ++ pad2 c.2.2 ++ "UTC"

/-- The `Shareable` built from one new question in the `for_each` body of
`stackoverflow.rs` `fetch` (lines 100–117): the date conversion
(`Utc.timestamp(item.creation_date, 0)`) panics — modeled as `none` —
when `creation_date` is out of chrono's range; otherwise the tri-state
answered status is embedded as a marker in the title. -/
def soNormalize (q : StackOverflowQuestion) : Option Shareable :=
  if chronoTimestampOk q.creation_date then
    let state :=
      if q.is_answered then ":white_check_mark:"
      else if q.answer_count > 0 then ":waiting-spin:"
      else ":question:"
    some
      { id := "stackoverflow-" ++ q.link
        title := state ++ " - " ++ q.title
        date := utcDateString q.creation_date
        url := q.link
        source := "stackoverflow" }
  else none

/-- The `shareables` vector built by the `for_each` loop of
`stackoverflow.rs` `fetch` (lines 95–118): a question whose prospective
id is in the known snapshot is skipped before any date conversion; a new
question is normalized, which may panic (`none` aborts the whole cycle
before any write). -/
def soBatch (known : List String) : List StackOverflowQuestion → Option (List Shareable)
  | [] => some []
  | q :: qs =>
    if ("stackoverflow-" ++ q.link) ∈ known then soBatch known qs
    else
      match soNormalize q with
      | none => none
      | some sh => (soBatch known qs).map (fun rest => sh :: rest)

/-- `stackoverflow.rs` `fetch` (lines 80–147), the check-then-write Fetch
Cycle for the Q&A source, parameterized by the outcome of
`fetch_stackoverflow_api`: on a fetch error, log and `return Ok(())`
(line 122) — no write; on success, build the batch (a panic in the date
conversion, `none`, kills the task before any write) and run the plain
`INSERT` `exec_batch`. -/
def soFetch (s : Store) (sr : Except String StackOverflowResponse) :
    Option (Store × Except String Unit) :=
  let known := storeIds s
  match sr with
  | .error _ => some (s, .ok ())
  | .ok data =>
    match soBatch known data.items with
    | none => none
    | some shareables =>
      let res := plainInsertBatch s shareables
      some (res.1, match res.2 with | some m => .error m | none => .ok ())

/-- `Fetcher::run` (`base.rs` lines 34–55), the idempotent-write Fetch
Cycle, parameterized by the outcome of the trait's `fetch`: a fetch error
is propagated with `?` (distinct `Err` result, no write); on success all
fetched items are submitted through the `INSERT IGNORE` batch. -/
def fetcherRun (s : Store) (fr : Except String (List Shareable)) :
    Store × Except String Unit :=
  match fr with
  | .error e => (s, .error e)
  | .ok items => (insertIgnoreBatch s items, .ok ())

/-- Loop-control outcome of one scheduler iteration. -/
inductive LoopCtl where
  | cont
  | exit
  deriving DecidableEq

/-- One iteration of the scheduler loop body (`base.rs` `run_in_loop`
lines 66–78, identical shape in `stackoverflow.rs` `spawn_fetcher` and
`twitter.rs` `spawn_fetcher`): run one cycle, `match` on its result — the
`Ok` arm and the `Err` arm both only log — and fall through to
`interval.tick()`.  No arm breaks or returns, so control always
continues. -/
def runLoopIter {β : Type} (cycle : Store → β → Store × Except String Unit)
    (s : Store) (fr : β) : Store × Except String Unit × LoopCtl :=
  let res := cycle s fr
  (res.1, res.2, LoopCtl.cont)

/-- The scheduler loop (`base.rs` `run_in_loop` / the `spawn_fetcher`
loops) run for one tick per element of the per-tick upstream-outcome
list: each tick runs one full cycle (including its store write) to
completion before the next tick's cycle starts, and collects the cycle
outcomes in order.  The list is fuel: the real loop is `loop { ... }`
with no exit, so for every `n` it processes an `n`-th tick. -/
def runInLoop {β : Type} (cycle : Store → β → Store × Except String Unit) :
    Store → List β → Store × List (Except String Unit)
  | s, [] => (s, [])
  | s, fr :: frs =>
    let st := runLoopIter cycle s fr
    let rest := runInLoop cycle st.1 frs
    (rest.1, st.2.1 :: rest.2)

/-- One store-affecting step for the duplicate-freedom invariant: a full
idempotent-write cycle (`Fetcher::run`), a full check-then-write tweet
cycle (`twitter.rs` `fetch`), a full check-then-write question cycle
(`stackoverflow.rs` `fetch`), or a single racing `INSERT IGNORE` row — an
arbitrary interleaving of concurrent idempotent-write batches is some
sequence of such single-row steps. -/
inductive CycleStep where
  | idem (fr : Except String (List Shareable))
  | tweetCycle (tr : Except String TwitterResponse)
  | soCycle (sr : Except String StackOverflowResponse)
  | race (p : Shareable)

/-- Effect of one `CycleStep` on the store (a panicking StackOverflow
cycle dies before its write, leaving the store unchanged). -/
def stepStore (s : Store) : CycleStep → Store
  | .idem fr => (fetcherRun s fr).1
  | .tweetCycle tr => (twitterFetch s tr).1
  | .soCycle sr => match soFetch s sr with
      | none => s
      | some res => res.1
  | .race p => insertIgnoreRow s p

/-- The store after a sequence of Fetch Cycle executions. -/
def runSteps (s : Store) (steps : List CycleStep) : Store :=
  steps.foldl stepStore s

/-- Model of the upstream recent-search endpoint for the pagination claim:
the chain of pages the provider would serve, each with its raw items and
the continuation token leading to the next page (`none` on the last
page).  Following the token of page `k` reaches page `k+1`. -/
structure TwitterPage where
  items : List TwitterResponseItem
  next_token : Option String
  deriving DecidableEq

/-- `fetch_twitter_api` (`twitter.rs` lines 44–69) against the page-chain
model: the code issues exactly ONE `GET` whose URL carries
`max_results` and `query` but no pagination-token parameter, so the
provider serves the first page; decoding into `TwitterResponse` keeps
only `data`, dropping any continuation token.  An empty chain stands for
a transport/decode failure. -/
def fetchTwitterApiModel : List TwitterPage → Except String TwitterResponse
  | [] => .error "error decoding response body"
  | p :: _ => .ok { data := p.items }

/-- Modelled from the spec: the Pagination Driver of spec sections 4.3 and
8, which the repository does not implement — it starts with no cursor,
concatenates the pages' items in page order, follows each page's
continuation token, and stops at the first page whose token is absent.
Stated over the same page-chain model, for comparison with
`fetchTwitterApiModel`. -/
def specPaginationItems : List TwitterPage → List TwitterResponseItem
  | [] => []
  | p :: rest =>
    p.items ++ (match p.next_token with
      | none => []
      | some _ => specPaginationItems rest)

/-- `TwitterResponseItem` of `src/main.rs` (lines 53–57), the storeless
deployment: no `created_at` field. -/
structure MainTwitterItem where
  id : String
  text : String
  deriving DecidableEq

/-- `Cacheable::cache_key` for the storeless tweet item (`main.rs`
lines 72–74). -/
def mainCacheKey (it : MainTwitterItem) : String := "twitter-" ++ it.id

/-- `Cacheable::never_share` for the storeless tweet item (`main.rs`
lines 76–78): retweets and replies are excluded. -/
def mainNeverShare (it : MainTwitterItem) : Bool :=
  strContainsSub it.text "RT" || strStarts it.text "@"

/-- `StackOverflowQuestion` of `src/main.rs` (lines 103–109): no
`creation_date` field in the storeless deployment. -/
structure MainSOItem where
  is_answered : Bool
  link : String
  title : String
  answer_count : Int
  deriving DecidableEq

/-- `Cacheable::cache_key` for the storeless question (`main.rs`
lines 131–135). -/
def mainSOCacheKey (q : MainSOItem) : String := "stack-overflow-" ++ q.link

/-- The in-process `LocalCache` (`main.rs` lines 81–94): a `HashSet` of
cache keys, as the list of keys in insertion order.  `add` inserts the
key (a no-op when present); `contains` is membership; no operation ever
removes a key. -/
abbrev Cache := List String

/-- `LocalCache::add` (`main.rs` lines 87–90). -/
def cacheAdd (c : Cache) (k : String) : Cache :=
  if k ∈ c then c else c ++ [k]

/-- `filter_duplicate_twitter_items` (`main.rs` lines 229–248): under the
cache's write lock, for each item in response order — a key already in
the cache is skipped; otherwise a `never_share` item is skipped (its key
is NOT added); otherwise the item is pushed to `items_to_post` and its
key added to the cache immediately, before any posting happens. -/
def filterDuplicateTwitterItems (c : Cache) :
    List MainTwitterItem → Cache × List MainTwitterItem
  | [] => (c, [])
  | it :: its =>
    if mainCacheKey it ∈ c then filterDuplicateTwitterItems c its
    else if mainNeverShare it then filterDuplicateTwitterItems c its
    else
      let rest := filterDuplicateTwitterItems (cacheAdd c (mainCacheKey it)) its
      (rest.1, it :: rest.2)

/-- `filter_duplicate_stack_overflow_items` (`main.rs` lines 250–269):
same loop for questions; `never_share` is the trait default `false`. -/
def filterDuplicateSOItems (c : Cache) :
    List MainSOItem → Cache × List MainSOItem
  | [] => (c, [])
  | q :: qs =>
    if mainSOCacheKey q ∈ c then filterDuplicateSOItems c qs
    else
      let rest := filterDuplicateSOItems (cacheAdd c (mainSOCacheKey q)) qs
      (rest.1, q :: rest.2)

/-- The `Reponse` struct of `main.rs` (lines 14–18), the handler's JSON
reply (field names as in the source). -/
structure Reponse where
  status : String
  posted_items : Option Int
  deriving DecidableEq

/-- One arm of the `for item in [reponses.0, reponses.1]` loop of `root`
(`main.rs` lines 290–299): a successful tweet search is filtered and its
survivors extend `items_to_post`; a failed one is only logged. -/
def rootTwStage (c : Cache) : Except String (List MainTwitterItem) →
    Cache × List MainTwitterItem
  | .ok resp => filterDuplicateTwitterItems c resp
  | .error _ => (c, [])

/-- The `reponses.2` arm of `root` (`main.rs` lines 301–308) for the
question search. -/
def rootSOStage (c : Cache) : Except String (List MainSOItem) →
    Cache × List MainSOItem
  | .ok resp => filterDuplicateSOItems c resp
  | .error _ => (c, [])

/-- The `root` handler of the storeless deployment (`main.rs`
lines 272–337), parameterized by the three upstream outcomes (two tweet
searches and one question search) and by whether the Slack webhook post
succeeded: failed fetches are only logged; the surviving items are
filtered against the shared cache (which records their keys at filter
time); the Slack post result is matched purely for logging — neither arm
touches the cache or the reply — and the handler always answers
`status = "ok"` with the posted count.  Returns the updated cache, the
reply, and `items_to_post` split by item type. -/
def root (c : Cache) (r0 r1 : Except String (List MainTwitterItem))
    (r2 : Except String (List MainSOItem)) (slackOk : Bool) :
    Cache × Reponse × List MainTwitterItem × List MainSOItem :=
  let f0 := rootTwStage c r0
  let f1 := rootTwStage f0.1 r1
  let f2 := rootSOStage f1.1 r2
  let twPosts := f0.2 ++ f1.2
  let soPosts := f2.2
  let _ := slackOk
  (f2.1,
   { status := "ok", posted_items := some ((twPosts.length : Int) + soPosts.length) },
   twPosts, soPosts)

end KeywordNotifier

namespace KeywordNotifier

/-! ### Store lemmas -/

theorem storeIds_append (s t : Store) :
    storeIds (s ++ t) = storeIds s ++ storeIds t :=
  List.map_append _ _ _

theorem insertIgnoreRow_of_mem {s : Store} {p : Shareable}
    (h : p.id ∈ storeIds s) : insertIgnoreRow s p = s := by
  simp [insertIgnoreRow, h]

theorem insertIgnoreRow_nodup (s : Store) (p : Shareable)
    (h : (storeIds s).Nodup) : (storeIds (insertIgnoreRow s p)).Nodup := by
  unfold insertIgnoreRow
  split
  · exact h
  · rename_i hn
    rw [storeIds_append, List.nodup_append]
    refine ⟨h, List.nodup_singleton _, ?_⟩
    intro x hx hy
    simp only [storeIds, List.map_cons, List.map_nil, List.mem_singleton] at hy
    subst hy
    exact hn hx

theorem mem_insertIgnoreRow (s : Store) (p : Shareable) (x : String)
    (h : x ∈ storeIds s) : x ∈ storeIds (insertIgnoreRow s p) := by
  unfold insertIgnoreRow
  split
  · exact h
  · rw [storeIds_append]
    exact List.mem_append_left _ h

theorem id_mem_insertIgnoreRow (s : Store) (p : Shareable) :
    p.id ∈ storeIds (insertIgnoreRow s p) := by
  unfold insertIgnoreRow
  split
  · assumption
  · rw [storeIds_append]
    refine List.mem_append_right _ ?_
    simp [storeIds]

theorem insertIgnoreBatch_cons (s : Store) (p : Shareable) (ps : List Shareable) :
    insertIgnoreBatch s (p :: ps) = insertIgnoreBatch (insertIgnoreRow s p) ps := rfl

theorem insertIgnoreBatch_nodup (ps : List Shareable) :
    ∀ s : Store, (storeIds s).Nodup → (storeIds (insertIgnoreBatch s ps)).Nodup := by
  induction ps with
  | nil => intro s h; exact h
  | cons p ps ih =>
    intro s h
    rw [insertIgnoreBatch_cons]
    exact ih _ (insertIgnoreRow_nodup s p h)

theorem mem_insertIgnoreBatch (ps : List Shareable) :
    ∀ (s : Store) (x : String), x ∈ storeIds s → x ∈ storeIds (insertIgnoreBatch s ps) := by
  induction ps with
  | nil => intro s x h; exact h
  | cons p ps ih =>
    intro s x h
    rw [insertIgnoreBatch_cons]
    exact ih _ _ (mem_insertIgnoreRow s p x h)

theorem item_id_mem_insertIgnoreBatch (ps : List Shareable) :
    ∀ (s : Store) (p : Shareable), p ∈ ps → p.id ∈ storeIds (insertIgnoreBatch s ps) := by
  induction ps with
  | nil => intro s p h; cases h
  | cons q qs ih =>
    intro s p h
    rw [insertIgnoreBatch_cons]
    rcases List.mem_cons.mp h with h1 | h2
    · subst h1
      exact mem_insertIgnoreBatch qs _ _ (id_mem_insertIgnoreRow s p)
    · exact ih _ _ h2

theorem insertIgnoreBatch_skip (ps : List Shareable) :
    ∀ s : Store, (∀ p ∈ ps, p.id ∈ storeIds s) → insertIgnoreBatch s ps = s := by
  induction ps with
  | nil => intro s _; rfl
  | cons q qs ih =>
    intro s h
    rw [insertIgnoreBatch_cons, insertIgnoreRow_of_mem (h q (List.mem_cons_self q qs))]
    exact ih s (fun p hp => h p (List.mem_cons_of_mem q hp))

theorem plainInsertBatch_nil (s : Store) : plainInsertBatch s [] = (s, none) := rfl

theorem plainInsertBatch_nodup (ps : List Shareable) :
    ∀ s : Store, (storeIds s).Nodup → (storeIds (plainInsertBatch s ps).1).Nodup := by
  induction ps with
  | nil => intro s h; exact h
  | cons p ps ih =>
    intro s h
    unfold plainInsertBatch
    split
    · exact h
    · rename_i hn
      apply ih
      rw [storeIds_append, List.nodup_append]
      refine ⟨h, List.nodup_singleton _, ?_⟩
      intro x hx hy
      simp only [storeIds, List.map_cons, List.map_nil, List.mem_singleton] at hy
      subst hy
      exact hn hx

theorem plainInsertBatch_decomp (ps : List Shareable) :
    ∀ s : Store, ∃ p q, p ++ q = ps ∧ (plainInsertBatch s ps).1 = s ++ p := by
  induction ps with
  | nil =>
    intro s
    exact ⟨[], [], rfl, by simp [plainInsertBatch_nil]⟩
  | cons r rs ih =>
    intro s
    by_cases h : r.id ∈ storeIds s
    · refine ⟨[], r :: rs, rfl, ?_⟩
      simp [plainInsertBatch, h]
    · obtain ⟨p, q, hpq, hst⟩ := ih (s ++ [r])
      refine ⟨r :: p, q, by rw [List.cons_append, hpq], ?_⟩
      simp only [plainInsertBatch, if_neg h]
      rw [hst, List.append_assoc, List.singleton_append]

theorem plainInsertBatch_ok (ps : List Shareable) :
    ∀ s : Store, (plainInsertBatch s ps).2 = none → (plainInsertBatch s ps).1 = s ++ ps := by
  induction ps with
  | nil => intro s _; simp [plainInsertBatch_nil]
  | cons r rs ih =>
    intro s h
    by_cases hm : r.id ∈ storeIds s
    · simp [plainInsertBatch, hm] at h
    · simp only [plainInsertBatch, if_neg hm] at h ⊢
      rw [ih _ h, List.append_assoc, List.singleton_append]

theorem plainInsertBatch_fresh (ps : List Shareable) :
    ∀ s : Store, (ps.map (fun p => p.id)).Nodup →
      (∀ p ∈ ps, p.id ∉ storeIds s) →
      plainInsertBatch s ps = (s ++ ps, none) := by
  induction ps with
  | nil => intro s _ _; simp [plainInsertBatch_nil]
  | cons r rs ih =>
    intro s hnd hf
    have hr : r.id ∉ storeIds s := hf r (List.mem_cons_self r rs)
    simp only [List.map_cons, List.nodup_cons] at hnd
    simp only [plainInsertBatch, if_neg hr]
    rw [ih (s ++ [r]) hnd.2 ?fresh]
    · rw [List.append_assoc, List.singleton_append]
    case fresh =>
      intro p hp
      rw [storeIds_append]
      intro hmem
      rcases List.mem_append.mp hmem with h1 | h2
      · exact hf p (List.mem_cons_of_mem r hp) h1
      · simp only [storeIds, List.map_cons, List.map_nil, List.mem_singleton] at h2
        exact hnd.1 (h2 ▸ List.mem_map_of_mem (fun p => p.id) hp)

/-! ### Twitter batch lemmas -/

theorem twitterNormalize_id (it : TwitterResponseItem) :
    (twitterNormalize it).id = "twitter-" ++ it.id := rfl

theorem twitterNormalize_title (it : TwitterResponseItem) :
    (twitterNormalize it).title = it.text := rfl

theorem twitterBatch_sublist (known : List String) (its : List TwitterResponseItem) :
    ((twitterBatch known its).map (fun sh => sh.id)).Sublist
      (its.map (fun it => "twitter-" ++ it.id)) := by
  induction its with
  | nil => simp [twitterBatch]
  | cons it its ih =>
    simp only [twitterBatch, List.map_cons]
    split
    · exact ih.cons _
    · split
      · exact ih.cons _
      · simpa only [List.map_cons, twitterNormalize_id] using ih.cons₂ _

theorem twitterBatch_mem {known : List String} {its : List TwitterResponseItem}
    {sh : Shareable} (h : sh ∈ twitterBatch known its) :
    ∃ it, it ∈ its ∧ strContainsSub it.text "RT" = false ∧
      ("twitter-" ++ it.id) ∉ known ∧ sh = twitterNormalize it := by
  induction its with
  | nil => simp [twitterBatch] at h
  | cons it its ih =>
    simp only [twitterBatch] at h
    split at h
    · obtain ⟨w, hw, hrt, hk, he⟩ := ih h
      exact ⟨w, List.mem_cons_of_mem it hw, hrt, hk, he⟩
    · split at h
      · obtain ⟨w, hw, hrt, hk, he⟩ := ih h
        exact ⟨w, List.mem_cons_of_mem it hw, hrt, hk, he⟩
      · rcases List.mem_cons.mp h with h1 | h2
        · rename_i hrt hk
          exact ⟨it, List.mem_cons_self it its,
            Bool.not_eq_true _ ▸ Bool.of_not_eq_true hrt, hk, h1⟩
        · obtain ⟨w, hw, hrt2, hk2, he⟩ := ih h2
          exact ⟨w, List.mem_cons_of_mem it hw, hrt2, hk2, he⟩

theorem twitterBatch_cover {known : List String} {its : List TwitterResponseItem}
    {it : TwitterResponseItem} (h : it ∈ its)
    (hrt : strContainsSub it.text "RT" = false)
    (hk : ("twitter-" ++ it.id) ∉ known) :
    twitterNormalize it ∈ twitterBatch known its := by
  induction its with
  | nil => cases h
  | cons w ws ih =>
    rcases List.mem_cons.mp h with h1 | h2
    · subst h1
      simp only [twitterBatch, hrt, if_neg hk]
      simp
    · simp only [twitterBatch]
      split
      · exact ih h2
      · split
        · exact ih h2
        · exact List.mem_cons_of_mem _ (ih h2)

theorem twitterBatch_empty (known : List String) (its : List TwitterResponseItem)
    (h : ∀ it ∈ its, strContainsSub it.text "RT" = false → ("twitter-" ++ it.id) ∈ known) :
    twitterBatch known its = [] := by
  induction its with
  | nil => rfl
  | cons it its ih =>
    simp only [twitterBatch]
    have hrest := ih (fun w hw => h w (List.mem_cons_of_mem it hw))
    cases hrt : strContainsSub it.text "RT" with
    | true => simpa [hrt] using hrest
    | false =>
      have := h it (List.mem_cons_self it its) hrt
      simp [hrt, this, hrest]

end KeywordNotifier

namespace KeywordNotifier

/-! ### Cycle-level lemmas -/

theorem twitterFetch_error (s : Store) (e : String) :
    twitterFetch s (.error e) = (s, .ok ()) := rfl

theorem twitterFetch_ok_fst (s : Store) (data : TwitterResponse) :
    (twitterFetch s (.ok data)).1 =
      (plainInsertBatch s (twitterBatch (storeIds s) data.data)).1 := rfl

theorem soFetch_error (s : Store) (e : String) :
    soFetch s (.error e) = some (s, .ok ()) := rfl

theorem fetcherRun_error (s : Store) (e : String) :
    fetcherRun s (.error e) = (s, .error e) := rfl

theorem fetcherRun_ok (s : Store) (items : List Shareable) :
    fetcherRun s (.ok items) = (insertIgnoreBatch s items, .ok ()) := rfl

/-- First twitter check-then-write run on an internally duplicate-free
response: the full batch is appended and the cycle succeeds. -/
theorem twitterFetch_ok_success (s : Store) (data : TwitterResponse)
    (hnd : (data.data.map (fun it => "twitter-" ++ it.id)).Nodup) :
    twitterFetch s (.ok data) =
      (s ++ twitterBatch (storeIds s) data.data, .ok ()) := by
  have hsub := twitterBatch_sublist (storeIds s) data.data
  have hbnd : ((twitterBatch (storeIds s) data.data).map (fun sh => sh.id)).Nodup :=
    hnd.sublist hsub
  have hfresh : ∀ p ∈ twitterBatch (storeIds s) data.data, p.id ∉ storeIds s := by
    intro p hp
    obtain ⟨it, _, _, hk, he⟩ := twitterBatch_mem hp
    subst he
    exact hk
  have h := plainInsertBatch_fresh (twitterBatch (storeIds s) data.data) s hbnd hfresh
  simp only [twitterFetch, h]

/-- After a successful first run, every non-excluded tweet of the same
response is known, so the second run's batch is empty. -/
theorem twitterBatch_after_run (s : Store) (data : TwitterResponse) :
    twitterBatch (storeIds (s ++ twitterBatch (storeIds s) data.data)) data.data = [] := by
  apply twitterBatch_empty
  intro it hit hrt
  rw [storeIds_append]
  by_cases hk : ("twitter-" ++ it.id) ∈ storeIds s
  · exact List.mem_append_left _ hk
  · refine List.mem_append_right _ ?_
    have hm := @twitterBatch_cover (storeIds s) data.data it hit hrt hk
    simpa only [storeIds, twitterNormalize_id] using
      List.mem_map_of_mem (fun p => p.id) hm

/-- Duplicate-freedom of the store ids is preserved by every
`CycleStep`. -/
theorem stepStore_nodup (s : Store) (st : CycleStep)
    (h : (storeIds s).Nodup) : (storeIds (stepStore s st)).Nodup := by
  cases st with
  | idem fr =>
    cases fr with
    | error e => exact h
    | ok items => exact insertIgnoreBatch_nodup items s h
  | tweetCycle tr =>
    cases tr with
    | error e => exact h
    | ok data =>
      simpa only [stepStore, twitterFetch_ok_fst] using
        plainInsertBatch_nodup (twitterBatch (storeIds s) data.data) s h
  | soCycle sr =>
    cases sr with
    | error e => exact h
    | ok data =>
      simp only [stepStore, soFetch]
      rcases hb : soBatch (storeIds s) data.items with _ | batch
      · exact h
      · exact plainInsertBatch_nodup batch s h
  | race p => exact insertIgnoreRow_nodup s p h

theorem runSteps_nodup (steps : List CycleStep) :
    ∀ s : Store, (storeIds s).Nodup → (storeIds (runSteps s steps)).Nodup := by
  induction steps with
  | nil => intro s h; exact h
  | cons st steps ih =>
    intro s h
    exact ih _ (stepStore_nodup s st h)

/-! ### Scheduler loop lemmas -/

theorem runInLoop_length {β : Type} (cycle : Store → β → Store × Except String Unit)
    (frs : List β) : ∀ s : Store, ((runInLoop cycle s frs).2).length = frs.length := by
  induction frs with
  | nil => intro s; rfl
  | cons fr frs ih =>
    intro s
    simp only [runInLoop, List.length_cons, ih]

theorem runInLoop_append {β : Type} (cycle : Store → β → Store × Except String Unit)
    (frs1 frs2 : List β) : ∀ s : Store,
    runInLoop cycle s (frs1 ++ frs2) =
      ((runInLoop cycle (runInLoop cycle s frs1).1 frs2).1,
       (runInLoop cycle s frs1).2 ++ (runInLoop cycle (runInLoop cycle s frs1).1 frs2).2) := by
  induction frs1 with
  | nil => intro s; simp [runInLoop]
  | cons fr frs ih =>
    intro s
    simp only [List.cons_append, runInLoop, List.append_eq, ih]

/-! ### Storeless cache lemmas -/

theorem mem_cacheAdd_self (c : Cache) (k : String) : k ∈ cacheAdd c k := by
  unfold cacheAdd
  split
  · assumption
  · exact List.mem_append_right _ (List.mem_singleton.mpr rfl)

theorem mem_cacheAdd_of_mem (c : Cache) (k x : String) (h : x ∈ c) :
    x ∈ cacheAdd c k := by
  unfold cacheAdd
  split
  · exact h
  · exact List.mem_append_left _ h

theorem filterTw_mono (its : List MainTwitterItem) :
    ∀ (c : Cache) (k : String), k ∈ c → k ∈ (filterDuplicateTwitterItems c its).1 := by
  induction its with
  | nil => intro c k h; exact h
  | cons it its ih =>
    intro c k h
    simp only [filterDuplicateTwitterItems]
    split
    · exact ih c k h
    · split
      · exact ih c k h
      · exact ih _ k (mem_cacheAdd_of_mem c _ k h)

theorem filterTw_key_mem (its : List MainTwitterItem) :
    ∀ (c : Cache) (y : MainTwitterItem),
      y ∈ (filterDuplicateTwitterItems c its).2 →
      mainCacheKey y ∈ (filterDuplicateTwitterItems c its).1 := by
  induction its with
  | nil => intro c y h; cases h
  | cons it its ih =>
    intro c y h
    simp only [filterDuplicateTwitterItems] at h ⊢
    split at h
    · rename_i hmem; simp only [hmem, if_pos] at *; exact ih c y h
    · split at h
      · rename_i hmem hns
        simp only [if_neg hmem, hns, if_pos] at *
        exact ih c y h
      · rename_i hmem hns
        simp only [if_neg hmem, if_neg hns] at *
        rcases List.mem_cons.mp h with h1 | h2
        · subst h1
          exact filterTw_mono its _ _ (mem_cacheAdd_self c (mainCacheKey y))
        · exact ih _ y h2

theorem filterTw_fresh (its : List MainTwitterItem) :
    ∀ (c : Cache) (y : MainTwitterItem),
      y ∈ (filterDuplicateTwitterItems c its).2 → mainCacheKey y ∉ c := by
  induction its with
  | nil => intro c y h; cases h
  | cons it its ih =>
    intro c y h
    simp only [filterDuplicateTwitterItems] at h
    split at h
    · exact ih c y h
    · split at h
      · exact ih c y h
      · rename_i hmem hns
        rcases List.mem_cons.mp h with h1 | h2
        · subst h1; exact hmem
        · intro hc
          exact ih _ y h2 (mem_cacheAdd_of_mem c _ _ hc)

theorem filterSO_mono (qs : List MainSOItem) :
    ∀ (c : Cache) (k : String), k ∈ c → k ∈ (filterDuplicateSOItems c qs).1 := by
  induction qs with
  | nil => intro c k h; exact h
  | cons q qs ih =>
    intro c k h
    simp only [filterDuplicateSOItems]
    split
    · exact ih c k h
    · exact ih _ k (mem_cacheAdd_of_mem c _ k h)

end KeywordNotifier

namespace KeywordNotifier

theorem filterTw_not_neverShare (its : List MainTwitterItem) :
    ∀ (c : Cache) (y : MainTwitterItem),
      y ∈ (filterDuplicateTwitterItems c its).2 → mainNeverShare y = false := by
  induction its with
  | nil => intro c y h; cases h
  | cons it its ih =>
    intro c y h
    simp only [filterDuplicateTwitterItems] at h
    split at h
    · exact ih c y h
    · split at h
      · exact ih c y h
      · rename_i hmem hns
        rcases List.mem_cons.mp h with h1 | h2
        · subst h1
          exact Bool.not_eq_true _ ▸ Bool.of_not_eq_true hns
        · exact ih _ y h2

theorem rootTwStage_mono (c : Cache) (r : Except String (List MainTwitterItem))
    (k : String) (h : k ∈ c) : k ∈ (rootTwStage c r).1 := by
  cases r with
  | error e => exact h
  | ok resp => exact filterTw_mono resp c k h

theorem rootTwStage_key_mem (c : Cache) (r : Except String (List MainTwitterItem))
    (y : MainTwitterItem) (h : y ∈ (rootTwStage c r).2) :
    mainCacheKey y ∈ (rootTwStage c r).1 := by
  cases r with
  | error e => cases h
  | ok resp => exact filterTw_key_mem resp c y h

theorem rootTwStage_fresh (c : Cache) (r : Except String (List MainTwitterItem))
    (y : MainTwitterItem) (h : y ∈ (rootTwStage c r).2) : mainCacheKey y ∉ c := by
  cases r with
  | error e => cases h
  | ok resp => exact filterTw_fresh resp c y h

theorem rootSOStage_mono (c : Cache) (r : Except String (List MainSOItem))
    (k : String) (h : k ∈ c) : k ∈ (rootSOStage c r).1 := by
  cases r with
  | error e => exact h
  | ok resp => exact filterSO_mono resp c k h

theorem twitterFetch_ok_snd (s : Store) (data : TwitterResponse) :
    (twitterFetch s (.ok data)).2 =
      match (plainInsertBatch s (twitterBatch (storeIds s) data.data)).2 with
      | some m => .error m
      | none => .ok () := rfl

end KeywordNotifier

namespace KeywordNotifier

/-! ### Claims -/

/-- C1: for every sequence of Fetch Cycle executions (full idempotent-write
cycles, full check-then-write tweet/question cycles, and — for the
idempotent-write strategy — arbitrarily interleaved racing `INSERT
IGNORE` rows), a store whose ids are duplicate-free stays duplicate-free:
no `id` is ever persisted twice; moreover the check-then-write path puts
an item into the plain-INSERT batch only if its `id` was absent from the
known-identifier snapshot read at cycle start. -/
theorem claim_c1 (s : Store) (steps : List CycleStep)
    (h : (storeIds s).Nodup) :
    (storeIds (runSteps s steps)).Nodup ∧
    ∀ (data : TwitterResponse) (sh : Shareable),
      sh ∈ twitterBatch (storeIds s) data.data → sh.id ∉ storeIds s := by
  refine ⟨runSteps_nodup steps s h, ?_⟩
  intro data sh hsh
  obtain ⟨it, _, _, hk, he⟩ := twitterBatch_mem hsh
  subst he
  exact hk

theorem claim_c1_witness :
    (storeIds (runSteps []
      [CycleStep.tweetCycle (.ok ⟨[⟨"1", "hello", "d1"⟩]⟩),
       CycleStep.tweetCycle (.ok ⟨[⟨"1", "hello", "d1"⟩]⟩),
       CycleStep.race ⟨"twitter-1", "hello", "d1", "u", "twitter"⟩,
       CycleStep.idem (.ok [⟨"twitter-1", "hello", "d1", "u", "twitter"⟩])])).Nodup :=
  (claim_c1 [] _ (by decide)).1

/-- C2: a Fetch Cycle is idempotent — with an unchanged upstream response
(whose tweet ids are pairwise distinct, i.e. a response set), running the
check-then-write tweet cycle a second time back-to-back persists zero new
items and succeeds (its second-run batch is empty against the enlarged
snapshot), and running the idempotent-write cycle a second time leaves
the store unchanged (every row is discarded by `INSERT IGNORE`). -/
theorem claim_c2 (s : Store) (data : TwitterResponse) (items : List Shareable)
    (hnd : (data.data.map (fun it => "twitter-" ++ it.id)).Nodup) :
    twitterFetch (twitterFetch s (.ok data)).1 (.ok data) =
      ((twitterFetch s (.ok data)).1, .ok ()) ∧
    fetcherRun (fetcherRun s (.ok items)).1 (.ok items) =
      ((fetcherRun s (.ok items)).1, .ok ()) := by
  constructor
  · rw [twitterFetch_ok_success s data hnd]
    have h2 := twitterBatch_after_run s data
    simp only [twitterFetch, h2, plainInsertBatch_nil]
  · simp only [fetcherRun_ok]
    rw [insertIgnoreBatch_skip items (insertIgnoreBatch s items)
      (fun p hp => item_id_mem_insertIgnoreBatch items s p hp)]

theorem claim_c2_witness :
    twitterFetch (twitterFetch [] (.ok ⟨[⟨"1", "aa", "d1"⟩, ⟨"2", "bb", "d2"⟩]⟩)).1
        (.ok ⟨[⟨"1", "aa", "d1"⟩, ⟨"2", "bb", "d2"⟩]⟩) =
      ((twitterFetch [] (.ok ⟨[⟨"1", "aa", "d1"⟩, ⟨"2", "bb", "d2"⟩]⟩)).1, .ok ()) ∧
    fetcherRun (fetcherRun [] (.ok [⟨"x", "t", "d", "u", "s"⟩])).1
        (.ok [⟨"x", "t", "d", "u", "s"⟩]) =
      ((fetcherRun [] (.ok [⟨"x", "t", "d", "u", "s"⟩])).1, .ok ()) :=
  claim_c2 [] ⟨[⟨"1", "aa", "d1"⟩, ⟨"2", "bb", "d2"⟩]⟩ [⟨"x", "t", "d", "u", "s"⟩]
    (by decide)

/-- C3 counterexample: the claim says the fetch feeds each response's
continuation token into the next request and returns the concatenation of
all pages; but on a two-page chain (page 1 carrying token `"T1"`,
page 2 final) the code's single uncursored request returns only page 1's
items, not the concatenation the spec's Pagination Driver would return. -/
theorem claim_c3_counterexample :
    fetchTwitterApiModel
        [⟨[⟨"1", "aa", "d1"⟩], some "T1"⟩, ⟨[⟨"2", "bb", "d2"⟩], none⟩] =
      .ok ⟨[⟨"1", "aa", "d1"⟩]⟩ ∧
    specPaginationItems
        [⟨[⟨"1", "aa", "d1"⟩], some "T1"⟩, ⟨[⟨"2", "bb", "d2"⟩], none⟩] =
      [⟨"1", "aa", "d1"⟩, ⟨"2", "bb", "d2"⟩] ∧
    ([⟨"1", "aa", "d1"⟩] : List TwitterResponseItem) ≠
      [⟨"1", "aa", "d1"⟩, ⟨"2", "bb", "d2"⟩] := by
  refine ⟨rfl, rfl, ?_⟩
  decide

/-- C3 as amended: no pagination is performed — the fetch for one cycle
issues exactly one request with no cursor and returns exactly the first
page's items, whatever continuation tokens the chain carries; it agrees
with the spec's Pagination Driver only when the first page is already the
last. -/
theorem claim_c3 (p : TwitterPage) (rest : List TwitterPage) :
    fetchTwitterApiModel (p :: rest) = .ok ⟨p.items⟩ ∧
    (p.next_token = none → specPaginationItems (p :: rest) = p.items) := by
  refine ⟨rfl, fun h => ?_⟩
  simp [specPaginationItems, h]

theorem claim_c3_witness :
    fetchTwitterApiModel [⟨[⟨"9", "zz", "d9"⟩], none⟩] = .ok ⟨[⟨"9", "zz", "d9"⟩]⟩ ∧
    specPaginationItems [⟨[⟨"9", "zz", "d9"⟩], none⟩] = [⟨"9", "zz", "d9"⟩] :=
  ⟨(claim_c3 ⟨[⟨"9", "zz", "d9"⟩], none⟩ []).1,
   (claim_c3 ⟨[⟨"9", "zz", "d9"⟩], none⟩ []).2 rfl⟩

/-- C4 counterexample: in the check-then-write cycles a fetch failure is
NOT distinct from success with zero items — `twitter.rs` and
`stackoverflow.rs` log the error and `return Ok(())`, producing exactly
the same result as a successful fetch of an empty response. -/
theorem claim_c4_counterexample :
    twitterFetch [] (.error "transport error") = twitterFetch [] (.ok ⟨[]⟩) ∧
    soFetch [] (.error "transport error") = soFetch [] (.ok ⟨[]⟩) := by
  exact ⟨rfl, rfl⟩

/-- C4 as amended: only the trait cycle `Fetcher::run` reports a fetch
failure upward as an `Err`, distinct from every success; the standalone
check-then-write cycles in `twitter.rs` and `stackoverflow.rs` swallow
the failure and return `Ok(())`, which the scheduler cannot distinguish
from success with zero new items (though no write happens on failure in
any path). -/
theorem claim_c4 (s : Store) (e : String) (items : List Shareable) :
    fetcherRun s (.error e) = (s, .error e) ∧
    (fetcherRun s (.error e)).2 ≠ (fetcherRun s (.ok items)).2 ∧
    twitterFetch s (.error e) = (s, .ok ()) ∧
    soFetch s (.error e) = some (s, .ok ()) := by
  refine ⟨rfl, ?_, rfl, rfl⟩
  simp [fetcherRun]

/-- C5: when the adapter's fetch fails, no store write occurs in that
cycle — each of the three cycle forms returns before reaching its batch
insert, leaving the store exactly as it was at cycle start. -/
theorem claim_c5 (s : Store) (e : String) :
    (twitterFetch s (.error e)).1 = s ∧
    soFetch s (.error e) = some (s, .ok ()) ∧
    (fetcherRun s (.error e)).1 = s :=
  ⟨rfl, rfl, rfl⟩

/-- C6 counterexample: the `fetcher-twitter` crate's cycle applies no
exclusion rule — given a batch with a retweet-marked item and a clean
one, it persists both, so the excluded item appears in the persisted
output. -/
theorem claim_c6_counterexample :
    (ftFetch [] (.ok ⟨[⟨"3", "RT something", "d3"⟩, ⟨"2", "plain", "d2"⟩]⟩)).1 =
      [twitterNormalize ⟨"3", "RT something", "d3"⟩,
       twitterNormalize ⟨"2", "plain", "d2"⟩] ∧
    strContainsSub (twitterNormalize ⟨"3", "RT something", "d3"⟩).title "RT" = true := by
  constructor
  · decide
  · decide

/-- C6 as amended: in the pipeline tweet cycle (`twitter.rs`) the
exclusion holds — an item whose text contains the retweet marker never
enters the write batch, regardless of the known-identifier snapshot, and
every row the cycle adds to the store is retweet-free; the storeless
handler likewise never posts a `never_share` item; only the standalone
`fetcher-twitter` crate lacks the rule. -/
theorem claim_c6 (s : Store) (data : TwitterResponse) (known : List String)
    (its : List TwitterResponseItem) (c : Cache) (mits : List MainTwitterItem) :
    (∀ sh ∈ twitterBatch known its, strContainsSub sh.title "RT" = false) ∧
    (∀ r ∈ (twitterFetch s (.ok data)).1,
      r ∈ s ∨ strContainsSub r.title "RT" = false) ∧
    (∀ y ∈ (filterDuplicateTwitterItems c mits).2, mainNeverShare y = false) := by
  refine ⟨?_, ?_, fun y hy => filterTw_not_neverShare mits c y hy⟩
  · intro sh hsh
    obtain ⟨it, _, hrt, _, he⟩ := twitterBatch_mem hsh
    subst he
    rw [twitterNormalize_title]
    exact hrt
  · intro r hr
    rw [twitterFetch_ok_fst] at hr
    obtain ⟨p, q, hpq, hst⟩ :=
      plainInsertBatch_decomp (twitterBatch (storeIds s) data.data) s
    rw [hst] at hr
    rcases List.mem_append.mp hr with h1 | h2
    · exact Or.inl h1
    · right
      have hb : r ∈ twitterBatch (storeIds s) data.data :=
        hpq ▸ List.mem_append_left q h2
      obtain ⟨it, _, hrt, _, he⟩ := twitterBatch_mem hb
      subst he
      rw [twitterNormalize_title]
      exact hrt

theorem claim_c6_witness :
    strContainsSub (twitterNormalize ⟨"2", "plain", "d2"⟩).title "RT" = false :=
  (claim_c6 [] ⟨[]⟩ [] [⟨"2", "plain", "d2"⟩] [] []).1
    (twitterNormalize ⟨"2", "plain", "d2"⟩) (by decide)

/-- C7: the claim says normalization is total for any `i64`
`creation_date`; but at `i64::MAX` the StackOverflow normalization's
`Utc.timestamp(creation_date, 0)` call is out of chrono's representable
range and panics (modeled as `none`), killing the whole cycle. -/
theorem claim_c7 :
    soNormalize ⟨false, "https://stackoverflow.com/q/1", "t", 0,
      9223372036854775807⟩ = none ∧
    soFetch [] (.ok ⟨[⟨false, "https://stackoverflow.com/q/1", "t", 0,
      9223372036854775807⟩]⟩) = none := by
  constructor
  · decide
  · decide

/-- C8 counterexample: a response whose tweets collide on `id` builds a
three-item batch of which the plain-INSERT `exec_batch` persists exactly
one row before the duplicate-key error aborts it — the cycle ends in a
store error with the store holding neither none nor all of the attempted
survivors. -/
theorem claim_c8_counterexample :
    (twitterFetch [] (.ok ⟨[⟨"1", "aa", "d"⟩, ⟨"1", "bb", "d"⟩, ⟨"2", "cc", "d"⟩]⟩)).2 =
      .error "Duplicate entry" ∧
    (twitterFetch [] (.ok ⟨[⟨"1", "aa", "d"⟩, ⟨"1", "bb", "d"⟩, ⟨"2", "cc", "d"⟩]⟩)).1 ≠
      [] ∧
    (twitterFetch [] (.ok ⟨[⟨"1", "aa", "d"⟩, ⟨"1", "bb", "d"⟩, ⟨"2", "cc", "d"⟩]⟩)).1 ≠
      twitterBatch [] [⟨"1", "aa", "d"⟩, ⟨"1", "bb", "d"⟩, ⟨"2", "cc", "d"⟩] := by
  refine ⟨rfl, ?_, ?_⟩
  · decide
  · decide

/-- C8 as amended: the cycle submits the whole candidate batch to a single
`exec_batch` call (or, on fetch failure, performs no write at all), and
on success the whole batch is appended; but `exec_batch` executes its
rows one by one without a transaction, so a cycle ending in a store error
leaves exactly the batch prefix before the failing row persisted —
partial persistence across the failure boundary is possible. -/
theorem claim_c8 (s : Store) (data : TwitterResponse) (e : String) :
    (∃ p q, p ++ q = twitterBatch (storeIds s) data.data ∧
      (twitterFetch s (.ok data)).1 = s ++ p) ∧
    ((twitterFetch s (.ok data)).2 = .ok () →
      (twitterFetch s (.ok data)).1 = s ++ twitterBatch (storeIds s) data.data) ∧
    (twitterFetch s (.error e)).1 = s := by
  refine ⟨?_, ?_, rfl⟩
  · simpa only [twitterFetch_ok_fst] using
      plainInsertBatch_decomp (twitterBatch (storeIds s) data.data) s
  · intro h
    rw [twitterFetch_ok_snd] at h
    rw [twitterFetch_ok_fst]
    rcases hres : (plainInsertBatch s (twitterBatch (storeIds s) data.data)).2 with _ | m
    · exact plainInsertBatch_ok _ s hres
    · rw [hres] at h
      cases h

theorem claim_c8_witness :
    (twitterFetch [] (.ok ⟨[⟨"9", "zz", "d9"⟩]⟩)).1 =
      [] ++ twitterBatch (storeIds []) [⟨"9", "zz", "d9"⟩] :=
  (claim_c8 [] ⟨[⟨"9", "zz", "d9"⟩]⟩ "e").2.1 (by decide)

/-- C9: the scheduler loop body has no exit path — after every cycle both
the success and the failure arm only log and fall through to the next
fixed-interval tick (`LoopCtl.cont`), so for every number of ticks the
loop runs exactly one cycle per tick whatever the outcomes were, each
cycle (including its store write) completing before the next one starts,
and the trace over any tick sequence is the concatenation of its parts. -/
theorem claim_c9 {β : Type} (cycle : Store → β → Store × Except String Unit)
    (s : Store) (fr : β) (frs frs2 : List β) :
    ((runInLoop cycle s frs).2).length = frs.length ∧
    (runLoopIter cycle s fr).2.2 = LoopCtl.cont ∧
    runInLoop cycle s (fr :: frs) =
      ((runInLoop cycle (runLoopIter cycle s fr).1 frs).1,
       (runLoopIter cycle s fr).2.1 ::
         (runInLoop cycle (runLoopIter cycle s fr).1 frs).2) ∧
    (runInLoop cycle s (frs ++ frs2)).2 =
      (runInLoop cycle s frs).2 ++
        (runInLoop cycle (runInLoop cycle s frs).1 frs2).2 := by
  refine ⟨runInLoop_length cycle frs s, rfl, rfl, ?_⟩
  rw [runInLoop_append]

/-- C10: in the storeless deployment, a posted item's cache key is in the
shared known-set already when the filter returns (before the Slack post
is attempted); the handler's cache result and its `"ok"` reply do not
depend on whether the Slack post succeeded; keys are never removed; and
an item whose key is already known is never posted again by a later
handler invocation. -/
theorem claim_c10 (c : Cache) (r0 r1 : Except String (List MainTwitterItem))
    (r2 : Except String (List MainSOItem)) (b : Bool) (y : MainTwitterItem)
    (k : String) :
    root c r0 r1 r2 true = root c r0 r1 r2 false ∧
    (root c r0 r1 r2 b).2.1.status = "ok" ∧
    (y ∈ (root c r0 r1 r2 b).2.2.1 → mainCacheKey y ∈ (root c r0 r1 r2 b).1) ∧
    (k ∈ c → k ∈ (root c r0 r1 r2 b).1) ∧
    (mainCacheKey y ∈ c → y ∉ (root c r0 r1 r2 b).2.2.1) := by
  refine ⟨rfl, rfl, ?_, ?_, ?_⟩
  · intro hy
    simp only [root] at hy ⊢
    rcases List.mem_append.mp hy with h0 | h1
    · exact rootSOStage_mono _ _ _
        (rootTwStage_mono _ _ _ (rootTwStage_key_mem _ _ _ h0))
    · exact rootSOStage_mono _ _ _ (rootTwStage_key_mem _ _ _ h1)
  · intro hk
    simp only [root]
    exact rootSOStage_mono _ _ _
      (rootTwStage_mono _ _ _ (rootTwStage_mono _ _ _ hk))
  · intro hk hy
    simp only [root] at hy
    rcases List.mem_append.mp hy with h0 | h1
    · exact rootTwStage_fresh _ _ _ h0 hk
    · exact rootTwStage_fresh _ _ _ h1 (rootTwStage_mono _ _ _ hk)

theorem claim_c10_witness :
    root ["twitter-1"] (.ok [⟨"1", "hello"⟩]) (.error "x") (.error "y") true =
      root ["twitter-1"] (.ok [⟨"1", "hello"⟩]) (.error "x") (.error "y") false ∧
    (⟨"1", "hello"⟩ : MainTwitterItem) ∉
      (root ["twitter-1"] (.ok [⟨"1", "hello"⟩]) (.error "x") (.error "y") true).2.2.1 :=
  ⟨(claim_c10 ["twitter-1"] (.ok [⟨"1", "hello"⟩]) (.error "x") (.error "y") true
      ⟨"1", "hello"⟩ "k").1,
   (claim_c10 ["twitter-1"] (.ok [⟨"1", "hello"⟩]) (.error "x") (.error "y") true
      ⟨"1", "hello"⟩ "k").2.2.2.2 (by decide)⟩

end KeywordNotifier
